import Mathlib

/-!
A shallow embedding of the simulation loop of the snake-3d-fps repository
(`src/game.js`), together with proofs about its behaviour.

Modelling conventions:
* JavaScript floating-point numbers are modelled by `ℚ`.
* `THREE.Vector3.distanceTo` computes a Euclidean distance; every use in the
  source compares it against a positive constant radius `r`, which is
  equivalent to comparing the squared distance against `r ^ 2`, so the model
  works with squared distances (`distSq`, `distXZSq`) to stay inside `ℚ`.
* `Math.sin` / `Math.cos` and the vector normalisation used for enemy
  directions produce irrational values; the model is parametric in an
  interpretation `Trig` of those three operations.  Every theorem below holds
  for an arbitrary interpretation.
* `Math.random` is modelled by an explicit stream of draws (`Rng`) threaded
  through the spawning code exactly where the source calls `Math.random()`.
* Scene-graph and DOM operations (`scene.add`, `scene.remove`, HUD text,
  pointer lock, rendering) are presentation-only and carry no simulation
  state; they are omitted.  The trailing `animate()` call in `startGame` is
  the render-loop kickoff and is treated as the first frame of the driver
  loop, which is outside the simulation core.
-/

namespace SnakeFps

/-- A 3D point/vector, mirroring `THREE.Vector3`. -/
structure Vec3 where
  x : ℚ
  y : ℚ
  z : ℚ
deriving DecidableEq

/-- Models `Vector3.addScaledVector`: `p + v * s`. -/
def addScaled (p v : Vec3) (s : ℚ) : Vec3 :=
  ⟨p.x + v.x * s, p.y + v.y * s, p.z + v.z * s⟩

/-- Squared Euclidean distance (models `a.distanceTo b` compared squared). -/
def distSq (a b : Vec3) : ℚ :=
  (a.x - b.x) ^ 2 + (a.y - b.y) ^ 2 + (a.z - b.z) ^ 2

/-- Squared horizontal-plane distance (used by `isPointNearSnake`). -/
def distXZSq (a b : Vec3) : ℚ :=
  (a.x - b.x) ^ 2 + (a.z - b.z) ^ 2

/-- Source `const worldSize = 50` — half-width of the square play area. -/
def worldSize : ℚ := 50

/-- Source `const floorY = 0`. -/
def floorY : ℚ := 0

/-- Source `const snakeHeight = 1.6` — eye height. -/
def snakeHeight : ℚ := 8 / 5

/-- Source `const recordStep = 0.5`. -/
def recordStep : ℚ := 1 / 2

/-- Source `const bulletSpeed = 25`. -/
def bulletSpeed : ℚ := 25

/-- Source `const enemySpeed = 1`. -/
def enemySpeed : ℚ := 1

/-- Source `let stepInterval = 0.7` — seconds between discrete steps. -/
def stepInterval : ℚ := 7 / 10

/-- Source `const stepSize = 0.7` — distance moved per step. -/
def stepSize : ℚ := 7 / 10

/-- An enemy: position plus wandering direction (`enemy.userData.dir`). -/
structure Enemy where
  pos : Vec3
  dir : Vec3
deriving DecidableEq

/-- A bullet: mesh position plus fixed direction. -/
structure Bullet where
  pos : Vec3
  dir : Vec3
deriving DecidableEq

/-- The stream of `Math.random()` draws, with the index of the next draw. -/
structure Rng where
  vals : ℕ → ℚ
  idx : ℕ

/-- Consume one `Math.random()` draw. -/
def Rng.next (r : Rng) : ℚ × Rng :=
  (r.vals r.idx, { r with idx := r.idx + 1 })

/-- Interpretation of the irrational-valued operations of the source:
`sinq`/`cosq` stand for `Math.sin`/`Math.cos`, and `normDir a b` stands for
`new THREE.Vector3(a * 2 - 1, 0, b * 2 - 1).normalize()` applied to two
`Math.random()` draws `a`, `b` (enemy wandering directions). -/
structure Trig where
  sinq : ℚ → ℚ
  cosq : ℚ → ℚ
  normDir : ℚ → ℚ → Vec3

/-- Models `randomPosition(margin = 2)`: two draws, scaled into the arena, with the
vertical coordinate pinned at `floorY + 0.5`. -/
def randomPosition (margin : ℚ) (r : Rng) : Vec3 × Rng :=
  let a := r.next
  let b := a.2.next
  let range := worldSize - margin
  (⟨(a.1 * 2 - 1) * range, floorY + 1 / 2, (b.1 * 2 - 1) * range⟩, b.2)

/-- Models `isPointNearSnake(pos)`: horizontal distance to the camera below 5. -/
def isPointNearSnake (cam pos : Vec3) : Bool :=
  distXZSq pos cam < 25

/-- The `do { pos = randomPosition(); tries++ } while (isPointNearSnake(pos)
&& tries < 10)` retry loop, with `fuel` draws remaining: accept the first
candidate not near the snake, or the last candidate once the bound is hit. -/
def spawnTry (cam : Vec3) : ℕ → Rng → Vec3 × Rng
  | 0, r => randomPosition 2 r
  | 1, r => randomPosition 2 r
  | n + 2, r =>
      let pr := randomPosition 2 r
      if isPointNearSnake cam pr.1 then spawnTry cam (n + 1) pr.2 else pr

/-- Candidate position for `spawnFood` / `spawnEnemy` (10 tries at most). -/
def spawnPos (cam : Vec3) (r : Rng) : Vec3 × Rng :=
  spawnTry cam 10 r

/-- The mutable state touched by the food-collection block of `animate`
(and by the spawn calls of `startGame`). -/
structure FoodSt where
  foods : List Vec3
  tailLength : ℕ
  moveSpeed : ℚ
  score : ℕ
  tailSegments : List Vec3
  enemies : List Enemy
  rng : Rng

/-- Models `spawnFood()`: push one new food at a retried random position. -/
def spawnFood (cam : Vec3) (st : FoodSt) : FoodSt :=
  let pr := spawnPos cam st.rng
  { st with foods := st.foods ++ [pr.1], rng := pr.2 }

/-- Models `spawnEnemy()`: push one new enemy at a retried random position with a
random wandering direction (two further draws, normalised). -/
def spawnEnemy (T : Trig) (cam : Vec3) (st : FoodSt) : FoodSt :=
  let pr := spawnPos cam st.rng
  let a := pr.2.next
  let b := a.2.next
  { st with enemies := st.enemies ++ [⟨pr.1, T.normDir a.1 b.1⟩], rng := b.2 }

/-- The growth effect of collecting one food: `tailLength += 2`,
`moveSpeed += 0.05`, `score += 1`, and two new tail segments at
`(camera.x, 0.2, camera.z)`. -/
def grow (cam : Vec3) (st : FoodSt) : FoodSt :=
  { st with
    tailLength := st.tailLength + 2
    moveSpeed := st.moveSpeed + 1 / 20
    score := st.score + 1
    tailSegments := st.tailSegments ++ [⟨cam.x, 1 / 5, cam.z⟩, ⟨cam.x, 1 / 5, cam.z⟩] }

/-- Models `if (enemies.length < 5 && Math.random() < 0.3) spawnEnemy()` — note the
short-circuit: the draw is only consumed when the count is below the cap. -/
def maybeSpawnEnemy (T : Trig) (cam : Vec3) (st : FoodSt) : FoodSt :=
  if st.enemies.length < 5 then
    if st.rng.next.1 < 3 / 10 then spawnEnemy T cam { st with rng := st.rng.next.2 }
    else { st with rng := st.rng.next.2 }
  else st

/-- Everything the source does when the player touches one food: remove it
(the caller drops it from the list), apply the growth effect, spawn exactly
one replacement food, and possibly spawn one extra enemy. -/
def collectFood (T : Trig) (cam : Vec3) (st : FoodSt) : FoodSt :=
  maybeSpawnEnemy T cam (spawnFood cam (grow cam st))

/-- The `for (let i = foods.length - 1; i >= 0; i--)` loop of `animate`.
The source iterates the array from the last index down, splicing collected
foods out and pushing replacements at the end (never revisited in the same
frame); this is realised by processing the tail of the list first.
`st.foods` accumulates the output registry. -/
def processFoods (T : Trig) (cam : Vec3) : List Vec3 → FoodSt → FoodSt
  | [], st => st
  | f :: rest, st =>
      if distSq cam f < 1 then collectFood T cam (processFoods T cam rest st)
      else
        { processFoods T cam rest st with
          foods := f :: (processFoods T cam rest st).foods }

/-- Position update of one bullet: `addScaledVector(dir, bulletSpeed * dt)`. -/
def moveBullet (dt : ℚ) (b : Bullet) : Vec3 :=
  addScaled b.pos b.dir (bulletSpeed * dt)

/-- The bullet out-of-bounds test: either horizontal coordinate beyond
`worldSize + 5` in absolute value. -/
def bulletOut (p : Vec3) : Prop :=
  worldSize + 5 < |p.x| ∨ worldSize + 5 < |p.z|

instance (p : Vec3) : Decidable (bulletOut p) :=
  inferInstanceAs (Decidable (worldSize + 5 < |p.x| ∨ worldSize + 5 < |p.z|))

/-- The inner `for (let j = enemies.length - 1; j >= 0; j--)` scan: remove
the first enemy within distance `0.6` of the bullet, scanning from the end
of the registry; `none` when no enemy is in range. -/
def removeHitFromEnd (p : Vec3) : List Enemy → Option (List Enemy)
  | [] => none
  | e :: rest =>
      match removeHitFromEnd p rest with
      | some rest1 => some (e :: rest1)
      | none => if distSq p e.pos < 9 / 25 then some rest else none

/-- The `for (let i = bullets.length - 1; i >= 0; i--)` loop of `animate`:
move each bullet, drop it if out of bounds, otherwise kill at most one enemy
(`score += 5`) and drop the bullet, else keep the moved bullet.  The source
iterates from the last index down, so the tail of the list is processed
first and sees the enemy registry before the earlier bullets do. -/
def processBullets (dt : ℚ) : List Bullet → List Enemy → ℕ → List Bullet × List Enemy × ℕ
  | [], es, sc => ([], es, sc)
  | b :: rest, es, sc =>
      if bulletOut (moveBullet dt b) then processBullets dt rest es sc
      else
        match removeHitFromEnd (moveBullet dt b) (processBullets dt rest es sc).2.1 with
        | some es1 =>
            ((processBullets dt rest es sc).1, es1, (processBullets dt rest es sc).2.2 + 5)
        | none =>
            ({ b with pos := moveBullet dt b } :: (processBullets dt rest es sc).1,
              (processBullets dt rest es sc).2.1, (processBullets dt rest es sc).2.2)

/-- The enemy wandering update: integrate, reflect the offending direction
component at the inward-margin boundary, re-pin the vertical coordinate. -/
def moveEnemy (dt : ℚ) (e : Enemy) : Enemy :=
  let p := addScaled e.pos e.dir (enemySpeed * dt)
  let dx := if worldSize - 1 < p.x ∨ p.x < -worldSize + 1 then -e.dir.x else e.dir.x
  let dz := if worldSize - 1 < p.z ∨ p.z < -worldSize + 1 then -e.dir.z else e.dir.z
  { pos := ⟨p.x, floorY + 1 / 2, p.z⟩, dir := ⟨dx, e.dir.y, dz⟩ }

/-- The step accumulator update of `animate`: add `dt`; if the accumulator
has reached `stepInterval`, subtract exactly one interval and fire one step
(`true`); otherwise keep accumulating (`false`). -/
def stepperUpdate (acc dt : ℚ) : ℚ × Bool :=
  if stepInterval ≤ acc + dt then (acc + dt - stepInterval, true) else (acc + dt, false)

/-- Trim the trail from the front once it exceeds
`tailSegments.length + 50` entries (`tailPositions.splice(0, ...)`). -/
def trimTrail (positions : List Vec3) (segCount : ℕ) : List Vec3 :=
  if segCount + 50 < positions.length then
    positions.drop (positions.length - (segCount + 50))
  else positions

/-- The segment-follow loop starting at segment index `i`: segment `i` takes
the trail entry `tailPositions.length - 1 - i` (at height `0.2`) when that
index exists, and keeps its old position otherwise. -/
def updateSegmentsFrom (positions : List Vec3) : ℕ → List Vec3 → List Vec3
  | _, [] => []
  | i, seg :: rest =>
      (if i < positions.length then
        let p := positions.getD (positions.length - 1 - i) seg
        ⟨p.x, 1 / 5, p.z⟩
      else seg) :: updateSegmentsFrom positions (i + 1) rest

/-- The `for (let i = 0; i < tailSegments.length; i++)` follow loop. -/
def updateSegments (positions segs : List Vec3) : List Vec3 :=
  updateSegmentsFrom positions 0 segs

/-- The whole mutable game state of `src/game.js`. -/
structure GameState where
  camera : Vec3
  yaw : ℚ
  pitch : ℚ
  stepAccumulator : ℚ
  moveSpeed : ℚ
  tailLength : ℕ
  tailSegments : List Vec3
  tailPositions : List Vec3
  foods : List Vec3
  enemies : List Enemy
  bullets : List Bullet
  score : ℕ
  gameActive : Bool
  endMessage : Option String
deriving DecidableEq

/-- Message of the eaten-by-adversary `endGame` call. -/
def eatenMsg : String := "You were eaten by an enemy!"

/-- Message of the self-collision `endGame` call. -/
def selfMsg : String := "You ran into yourself!"

/-- Message of the wall-collision `endGame` call. -/
def wallMsg : String := "You hit the wall!"

/-- Models `endGame(msg)`: stop the loop and record the game-over message (the
overlay/pointer-lock calls are presentation-only). -/
def endGame (msg : String) (s : GameState) : GameState :=
  { s with gameActive := false, endMessage := some msg }

/-- Player-vs-enemy termination test: some enemy within distance `1.0`. -/
def enemyHit (s : GameState) : Prop :=
  ∃ e ∈ s.enemies, distSq s.camera e.pos < 1

instance (s : GameState) : Decidable (enemyHit s) :=
  inferInstanceAs (Decidable (∃ e ∈ s.enemies, distSq s.camera e.pos < 1))

/-- Player-vs-tail termination test: the `for (let i = 3; ...)` loop —
some segment of index at least 3 within distance `0.4`. -/
def selfHit (s : GameState) : Prop :=
  ∃ seg ∈ s.tailSegments.drop 3, distSq s.camera seg < 4 / 25

instance (s : GameState) : Decidable (selfHit s) :=
  inferInstanceAs (Decidable (∃ seg ∈ s.tailSegments.drop 3, distSq s.camera seg < 4 / 25))

/-- Player-vs-wall termination test: horizontal position beyond the
inward `0.5` margin on either axis. -/
def wallHit (s : GameState) : Prop :=
  worldSize - 1 / 2 < s.camera.x ∨ s.camera.x < -worldSize + 1 / 2 ∨
    worldSize - 1 / 2 < s.camera.z ∨ s.camera.z < -worldSize + 1 / 2

instance (s : GameState) : Decidable (wallHit s) :=
  inferInstanceAs (Decidable (worldSize - 1 / 2 < s.camera.x ∨ s.camera.x < -worldSize + 1 / 2 ∨
    worldSize - 1 / 2 < s.camera.z ∨ s.camera.z < -worldSize + 1 / 2))

/-- Camera translation on a step: move `stepSize` along `forward`, then
re-pin the camera height (`camera.position.y = snakeHeight`). -/
def stepCamera (c forward : Vec3) : Vec3 :=
  let c1 := addScaled c forward stepSize
  ⟨c1.x, snakeHeight, c1.z⟩

/-- The camera after the step block of `animate`: on a step, translated
along the yaw-only forward vector `(sin yaw, 0, cos yaw)` (pitch excluded;
with genuine trigonometric functions this vector is already unit length, so
the defensive `normalize()` of the source is the identity). -/
def stepCameraOf (T : Trig) (dt : ℚ) (s : GameState) : Vec3 :=
  if (stepperUpdate s.stepAccumulator dt).2 then
    stepCamera s.camera ⟨T.sinq s.yaw, 0, T.cosq s.yaw⟩
  else s.camera

/-- The trail after the step block and the trim of `animate`: on a step the
new camera position is pushed, then the trail is trimmed against the segment
count of the frame start. -/
def trailOf (T : Trig) (dt : ℚ) (s : GameState) : List Vec3 :=
  trimTrail
    (if (stepperUpdate s.stepAccumulator dt).2 then
      s.tailPositions ++ [stepCameraOf T dt s]
    else s.tailPositions)
    s.tailSegments.length

/-- The food-block state after the movement, trim, segment-follow (the
source runs the follow loop twice, verbatim), bullet and enemy-wandering
phases of `animate`, ready for the food loop. -/
def foodStOf (T : Trig) (dt : ℚ) (r : Rng) (s : GameState) : FoodSt :=
  processFoods T (stepCameraOf T dt s) s.foods
    { foods := []
      tailLength := s.tailLength
      moveSpeed := s.moveSpeed
      score := (processBullets dt s.bullets s.enemies s.score).2.2
      tailSegments :=
        updateSegments (trailOf T dt s) (updateSegments (trailOf T dt s) s.tailSegments)
      enemies := (processBullets dt s.bullets s.enemies s.score).2.1.map (moveEnemy dt)
      rng := r }

/-- The state reached by `animate` just before the three termination checks:
all per-frame updates (step, trim, segment follow, bullets, enemy wandering,
food collection) applied in source order. -/
def preChecks (T : Trig) (dt : ℚ) (r : Rng) (s : GameState) : GameState :=
  { s with
    camera := stepCameraOf T dt s
    stepAccumulator := (stepperUpdate s.stepAccumulator dt).1
    tailPositions := trailOf T dt s
    tailSegments := (foodStOf T dt r s).tailSegments
    bullets := (processBullets dt s.bullets s.enemies s.score).1
    enemies := (foodStOf T dt r s).enemies
    foods := (foodStOf T dt r s).foods
    tailLength := (foodStOf T dt r s).tailLength
    moveSpeed := (foodStOf T dt r s).moveSpeed
    score := (foodStOf T dt r s).score }

/-- The three termination checks of `animate`, in source order; each one
returns immediately (`return endGame(...)`), so no further per-frame update
runs once a check triggers. -/
def finalChecks (s : GameState) : GameState :=
  if enemyHit s then endGame eatenMsg s
  else if selfHit s then endGame selfMsg s
  else if wallHit s then endGame wallMsg s
  else s

/-- One call of `animate` with elapsed time `dt`: a no-op unless the game is
active, otherwise the per-frame updates followed by the termination checks. -/
def animate (T : Trig) (dt : ℚ) (r : Rng) (s : GameState) : GameState :=
  if s.gameActive then finalChecks (preChecks T dt r s) else s

/-- The five initial tail segments at `(0, 0.2, -i * recordStep)`. -/
def initialSegments : List Vec3 :=
  (List.range 5).map fun i => ⟨0, 1 / 5, -(i : ℚ) * recordStep⟩

/-- Models `startGame()`: a no-op while a session is running; otherwise reset the
player, counters, registries, trail and segments, respawn two foods and two
enemies, and activate the loop. -/
def startGame (T : Trig) (r : Rng) (s : GameState) : GameState :=
  if s.gameActive then s
  else
    let cam : Vec3 := ⟨0, snakeHeight, 0⟩
    let st0 : FoodSt :=
      { foods := [], tailLength := 5, moveSpeed := 2, score := 0,
        tailSegments := initialSegments, enemies := [], rng := r }
    let st := spawnEnemy T cam (spawnEnemy T cam (spawnFood cam (spawnFood cam st0)))
    { s with
      camera := cam
      yaw := 0
      pitch := 0
      stepAccumulator := 0
      moveSpeed := 2
      tailLength := 5
      tailSegments := initialSegments
      tailPositions := []
      foods := st.foods
      enemies := st.enemies
      bullets := []
      score := 0
      gameActive := true }

/-- A sequence of frames: each entry carries the elapsed time and the random
draws of that frame. -/
def runFrames (T : Trig) : List (ℚ × Rng) → GameState → GameState
  | [], s => s
  | (dt, r) :: rest, s => runFrames T rest (animate T dt r s)

/-- The height discipline the source maintains: the camera stays at eye
height and every tail segment sits at height `0.2`. -/
def heightInv (s : GameState) : Prop :=
  s.camera.y = snakeHeight ∧ ∀ p ∈ s.tailSegments, p.y = 1 / 5

instance (s : GameState) : Decidable (heightInv s) :=
  inferInstanceAs (Decidable (s.camera.y = snakeHeight ∧ ∀ p ∈ s.tailSegments, p.y = 1 / 5))

/-- The Boolean pickup-contact test of the food loop. -/
def pickupHit (cam f : Vec3) : Bool :=
  distSq cam f < 1

/-- A concrete interpretation of the irrational operations: the trig pair
agrees with the real functions at yaw 0. -/
def cTrig : Trig :=
  ⟨fun _ => 0, fun _ => 1, fun _ _ => ⟨1, 0, 0⟩⟩

/-- A concrete draw stream. -/
def cRng : Rng :=
  ⟨fun _ => 1 / 2, 0⟩

/-- A concrete inactive (idle / just-ended) state. -/
def cIdle : GameState :=
  { camera := ⟨0, 8 / 5, 0⟩, yaw := 0, pitch := 0, stepAccumulator := 0, moveSpeed := 2,
    tailLength := 5, tailSegments := [], tailPositions := [], foods := [], enemies := [],
    bullets := [], score := 0, gameActive := false, endMessage := none }

/-- A concrete running state with an empty arena and a zeroed accumulator. -/
def cRun : GameState :=
  { camera := ⟨0, 8 / 5, 0⟩, yaw := 0, pitch := 0, stepAccumulator := 0, moveSpeed := 2,
    tailLength := 5, tailSegments := [], tailPositions := [], foods := [], enemies := [],
    bullets := [], score := 0, gameActive := true, endMessage := none }

/-- A concrete running state with one adversary exactly at the player. -/
def cChase : GameState :=
  { camera := ⟨0, 1 / 2, 0⟩, yaw := 0, pitch := 0, stepAccumulator := 0, moveSpeed := 2,
    tailLength := 5, tailSegments := [], tailPositions := [], foods := [],
    enemies := [⟨⟨0, 1 / 2, 0⟩, ⟨1, 0, 0⟩⟩], bullets := [], score := 0, gameActive := true,
    endMessage := none }

/-- A concrete running state with a four-segment body at regulation heights. -/
def cBody : GameState :=
  { camera := ⟨0, 8 / 5, 0⟩, yaw := 0, pitch := 0, stepAccumulator := 0, moveSpeed := 2,
    tailLength := 5,
    tailSegments := [⟨0, 1 / 5, 0⟩, ⟨0, 1 / 5, 1⟩, ⟨0, 1 / 5, 2⟩, ⟨0, 1 / 5, 3⟩],
    tailPositions := [], foods := [], enemies := [], bullets := [], score := 0,
    gameActive := true, endMessage := none }

/-- A concrete running state with every registry and the trail non-empty. -/
def cEnded : GameState :=
  { camera := ⟨0, 8 / 5, 0⟩, yaw := 0, pitch := 0, stepAccumulator := 0, moveSpeed := 2,
    tailLength := 5, tailSegments := [], tailPositions := [⟨1, 8 / 5, 1⟩],
    foods := [⟨2, 1 / 2, 2⟩], enemies := [⟨⟨3, 1 / 2, 3⟩, ⟨1, 0, 0⟩⟩],
    bullets := [⟨⟨0, 8 / 5, 0⟩, ⟨0, 0, 1⟩⟩], score := 0, gameActive := true,
    endMessage := none }

/-- A concrete bullet that sits outside the arena bounds. -/
def cBullet : Bullet :=
  ⟨⟨56, 1 / 2, 0⟩, ⟨0, 0, 1⟩⟩

/-- A concrete adversary at the same out-of-bounds point as `cBullet`. -/
def cEnemy : Enemy :=
  ⟨⟨56, 1 / 2, 0⟩, ⟨1, 0, 0⟩⟩

/-- A concrete food-block state. -/
def cFoodSt : FoodSt :=
  { foods := [], tailLength := 5, moveSpeed := 2, score := 0, tailSegments := [],
    enemies := [], rng := cRng }

theorem spawnFood_tailLength (cam : Vec3) (st : FoodSt) :
    (spawnFood cam st).tailLength = st.tailLength := rfl

theorem spawnFood_moveSpeed (cam : Vec3) (st : FoodSt) :
    (spawnFood cam st).moveSpeed = st.moveSpeed := rfl

theorem spawnFood_score (cam : Vec3) (st : FoodSt) :
    (spawnFood cam st).score = st.score := rfl

theorem spawnFood_tailSegments (cam : Vec3) (st : FoodSt) :
    (spawnFood cam st).tailSegments = st.tailSegments := rfl

theorem spawnFood_enemies (cam : Vec3) (st : FoodSt) :
    (spawnFood cam st).enemies = st.enemies := rfl

theorem spawnFood_foods_length (cam : Vec3) (st : FoodSt) :
    (spawnFood cam st).foods.length = st.foods.length + 1 := by
  unfold spawnFood
  simp

theorem spawnFood_foods_sublist (cam : Vec3) (st : FoodSt) :
    List.Sublist st.foods (spawnFood cam st).foods := by
  unfold spawnFood
  exact List.sublist_append_left st.foods _

theorem grow_foods (cam : Vec3) (st : FoodSt) : (grow cam st).foods = st.foods := rfl

theorem grow_tailLength (cam : Vec3) (st : FoodSt) :
    (grow cam st).tailLength = st.tailLength + 2 := rfl

theorem grow_moveSpeed (cam : Vec3) (st : FoodSt) :
    (grow cam st).moveSpeed = st.moveSpeed + 1 / 20 := rfl

theorem grow_score (cam : Vec3) (st : FoodSt) : (grow cam st).score = st.score + 1 := rfl

theorem grow_tailSegments (cam : Vec3) (st : FoodSt) :
    (grow cam st).tailSegments =
      st.tailSegments ++ [⟨cam.x, 1 / 5, cam.z⟩, ⟨cam.x, 1 / 5, cam.z⟩] := rfl

theorem grow_enemies (cam : Vec3) (st : FoodSt) : (grow cam st).enemies = st.enemies := rfl

theorem spawnEnemy_foods (T : Trig) (cam : Vec3) (st : FoodSt) :
    (spawnEnemy T cam st).foods = st.foods := rfl

theorem spawnEnemy_tailLength (T : Trig) (cam : Vec3) (st : FoodSt) :
    (spawnEnemy T cam st).tailLength = st.tailLength := rfl

theorem spawnEnemy_moveSpeed (T : Trig) (cam : Vec3) (st : FoodSt) :
    (spawnEnemy T cam st).moveSpeed = st.moveSpeed := rfl

theorem spawnEnemy_score (T : Trig) (cam : Vec3) (st : FoodSt) :
    (spawnEnemy T cam st).score = st.score := rfl

theorem spawnEnemy_tailSegments (T : Trig) (cam : Vec3) (st : FoodSt) :
    (spawnEnemy T cam st).tailSegments = st.tailSegments := rfl

theorem spawnEnemy_enemies_length (T : Trig) (cam : Vec3) (st : FoodSt) :
    (spawnEnemy T cam st).enemies.length = st.enemies.length + 1 := by
  unfold spawnEnemy
  simp

theorem maybeSpawnEnemy_foods (T : Trig) (cam : Vec3) (st : FoodSt) :
    (maybeSpawnEnemy T cam st).foods = st.foods := by
  unfold maybeSpawnEnemy
  split_ifs <;> rfl

theorem maybeSpawnEnemy_tailLength (T : Trig) (cam : Vec3) (st : FoodSt) :
    (maybeSpawnEnemy T cam st).tailLength = st.tailLength := by
  unfold maybeSpawnEnemy
  split_ifs <;> rfl

theorem maybeSpawnEnemy_moveSpeed (T : Trig) (cam : Vec3) (st : FoodSt) :
    (maybeSpawnEnemy T cam st).moveSpeed = st.moveSpeed := by
  unfold maybeSpawnEnemy
  split_ifs <;> rfl

theorem maybeSpawnEnemy_score (T : Trig) (cam : Vec3) (st : FoodSt) :
    (maybeSpawnEnemy T cam st).score = st.score := by
  unfold maybeSpawnEnemy
  split_ifs <;> rfl

theorem maybeSpawnEnemy_tailSegments (T : Trig) (cam : Vec3) (st : FoodSt) :
    (maybeSpawnEnemy T cam st).tailSegments = st.tailSegments := by
  unfold maybeSpawnEnemy
  split_ifs <;> rfl

theorem maybeSpawnEnemy_enemies_length (T : Trig) (cam : Vec3) (st : FoodSt) :
    (maybeSpawnEnemy T cam st).enemies.length =
      if st.enemies.length < 5 ∧ st.rng.next.1 < 3 / 10 then st.enemies.length + 1
      else st.enemies.length := by
  unfold maybeSpawnEnemy
  split_ifs with h1 h2 <;> simp_all [spawnEnemy_enemies_length]

theorem maybeSpawnEnemy_enemies_lb (T : Trig) (cam : Vec3) (st : FoodSt) :
    st.enemies.length ≤ (maybeSpawnEnemy T cam st).enemies.length := by
  rw [maybeSpawnEnemy_enemies_length]
  split_ifs <;> omega

theorem maybeSpawnEnemy_enemies_ub (T : Trig) (cam : Vec3) (st : FoodSt) :
    (maybeSpawnEnemy T cam st).enemies.length ≤ st.enemies.length + 1 := by
  rw [maybeSpawnEnemy_enemies_length]
  split_ifs <;> omega

theorem maybeSpawnEnemy_spawned_below_cap (T : Trig) (cam : Vec3) (st : FoodSt)
    (h : (maybeSpawnEnemy T cam st).enemies.length = st.enemies.length + 1) :
    st.enemies.length < 5 := by
  rw [maybeSpawnEnemy_enemies_length] at h
  by_contra hge
  rw [if_neg (by omega)] at h
  omega

theorem maybeSpawnEnemy_cap (T : Trig) (cam : Vec3) (st : FoodSt)
    (h : st.enemies.length ≤ 5) :
    (maybeSpawnEnemy T cam st).enemies.length ≤ 5 := by
  rw [maybeSpawnEnemy_enemies_length]
  split_ifs with h1 <;> omega

theorem collectFood_foods_length (T : Trig) (cam : Vec3) (st : FoodSt) :
    (collectFood T cam st).foods.length = st.foods.length + 1 := by
  unfold collectFood
  rw [maybeSpawnEnemy_foods, spawnFood_foods_length, grow_foods]

theorem collectFood_tailLength (T : Trig) (cam : Vec3) (st : FoodSt) :
    (collectFood T cam st).tailLength = st.tailLength + 2 := by
  unfold collectFood
  rw [maybeSpawnEnemy_tailLength, spawnFood_tailLength, grow_tailLength]

theorem collectFood_moveSpeed (T : Trig) (cam : Vec3) (st : FoodSt) :
    (collectFood T cam st).moveSpeed = st.moveSpeed + 1 / 20 := by
  unfold collectFood
  rw [maybeSpawnEnemy_moveSpeed, spawnFood_moveSpeed, grow_moveSpeed]

theorem collectFood_score (T : Trig) (cam : Vec3) (st : FoodSt) :
    (collectFood T cam st).score = st.score + 1 := by
  unfold collectFood
  rw [maybeSpawnEnemy_score, spawnFood_score, grow_score]

theorem collectFood_tailSegments (T : Trig) (cam : Vec3) (st : FoodSt) :
    (collectFood T cam st).tailSegments =
      st.tailSegments ++ [⟨cam.x, 1 / 5, cam.z⟩, ⟨cam.x, 1 / 5, cam.z⟩] := by
  unfold collectFood
  rw [maybeSpawnEnemy_tailSegments, spawnFood_tailSegments, grow_tailSegments]

theorem collectFood_enemies_lb (T : Trig) (cam : Vec3) (st : FoodSt) :
    st.enemies.length ≤ (collectFood T cam st).enemies.length := by
  unfold collectFood
  have h := maybeSpawnEnemy_enemies_lb T cam (spawnFood cam (grow cam st))
  rwa [spawnFood_enemies, grow_enemies] at h

theorem collectFood_enemies_ub (T : Trig) (cam : Vec3) (st : FoodSt) :
    (collectFood T cam st).enemies.length ≤ st.enemies.length + 1 := by
  unfold collectFood
  have h := maybeSpawnEnemy_enemies_ub T cam (spawnFood cam (grow cam st))
  rwa [spawnFood_enemies, grow_enemies] at h

theorem collectFood_cap (T : Trig) (cam : Vec3) (st : FoodSt)
    (h : st.enemies.length ≤ 5) :
    (collectFood T cam st).enemies.length ≤ 5 := by
  unfold collectFood
  refine maybeSpawnEnemy_cap T cam _ ?_
  rwa [spawnFood_enemies, grow_enemies]

theorem collectFood_foods_sublist (T : Trig) (cam : Vec3) (st : FoodSt) :
    List.Sublist st.foods (collectFood T cam st).foods := by
  unfold collectFood
  rw [maybeSpawnEnemy_foods]
  have h := spawnFood_foods_sublist cam (grow cam st)
  rwa [grow_foods] at h

theorem processFoods_foods_length (T : Trig) (cam : Vec3) :
    ∀ (pending : List Vec3) (st : FoodSt),
      (processFoods T cam pending st).foods.length = st.foods.length + pending.length
  | [], st => by simp [processFoods]
  | f :: rest, st => by
      have ih := processFoods_foods_length T cam rest st
      unfold processFoods
      split_ifs with h
      · rw [collectFood_foods_length, ih]
        simp only [List.length_cons]
        omega
      · show (f :: (processFoods T cam rest st).foods).length = _
        simp only [List.length_cons, ih]
        omega

theorem processFoods_tailLength (T : Trig) (cam : Vec3) :
    ∀ (pending : List Vec3) (st : FoodSt),
      (processFoods T cam pending st).tailLength =
        st.tailLength + 2 * List.countP (pickupHit cam) pending
  | [], st => by simp [processFoods]
  | f :: rest, st => by
      have ih := processFoods_tailLength T cam rest st
      unfold processFoods
      split_ifs with h
      · rw [collectFood_tailLength, ih,
          List.countP_cons_of_pos _ _ (by simp [pickupHit, h])]
        omega
      · show (processFoods T cam rest st).tailLength = _
        rw [ih, List.countP_cons_of_neg _ _ (by simp [pickupHit, h])]

theorem processFoods_score (T : Trig) (cam : Vec3) :
    ∀ (pending : List Vec3) (st : FoodSt),
      (processFoods T cam pending st).score = st.score + List.countP (pickupHit cam) pending
  | [], st => by simp [processFoods]
  | f :: rest, st => by
      have ih := processFoods_score T cam rest st
      unfold processFoods
      split_ifs with h
      · rw [collectFood_score, ih,
          List.countP_cons_of_pos _ _ (by simp [pickupHit, h])]
        omega
      · show (processFoods T cam rest st).score = _
        rw [ih, List.countP_cons_of_neg _ _ (by simp [pickupHit, h])]

theorem processFoods_moveSpeed (T : Trig) (cam : Vec3) :
    ∀ (pending : List Vec3) (st : FoodSt),
      (processFoods T cam pending st).moveSpeed =
        st.moveSpeed + (List.countP (pickupHit cam) pending : ℚ) * (1 / 20)
  | [], st => by simp [processFoods]
  | f :: rest, st => by
      have ih := processFoods_moveSpeed T cam rest st
      unfold processFoods
      split_ifs with h
      · rw [collectFood_moveSpeed, ih,
          List.countP_cons_of_pos _ _ (by simp [pickupHit, h])]
        push_cast
        ring
      · show (processFoods T cam rest st).moveSpeed = _
        rw [ih, List.countP_cons_of_neg _ _ (by simp [pickupHit, h])]

theorem processFoods_tailSegments_length (T : Trig) (cam : Vec3) :
    ∀ (pending : List Vec3) (st : FoodSt),
      (processFoods T cam pending st).tailSegments.length =
        st.tailSegments.length + 2 * List.countP (pickupHit cam) pending
  | [], st => by simp [processFoods]
  | f :: rest, st => by
      have ih := processFoods_tailSegments_length T cam rest st
      unfold processFoods
      split_ifs with h
      · rw [collectFood_tailSegments,
          List.countP_cons_of_pos _ _ (by simp [pickupHit, h])]
        simp only [List.length_append, ih, List.length_cons, List.length_nil]
        omega
      · show (processFoods T cam rest st).tailSegments.length = _
        rw [ih, List.countP_cons_of_neg _ _ (by simp [pickupHit, h])]

theorem processFoods_enemies_lb (T : Trig) (cam : Vec3) :
    ∀ (pending : List Vec3) (st : FoodSt),
      st.enemies.length ≤ (processFoods T cam pending st).enemies.length
  | [], st => le_refl _
  | f :: rest, st => by
      have ih := processFoods_enemies_lb T cam rest st
      unfold processFoods
      split_ifs with h
      · exact le_trans ih (collectFood_enemies_lb T cam _)
      · exact ih

theorem processFoods_enemies_ub (T : Trig) (cam : Vec3) :
    ∀ (pending : List Vec3) (st : FoodSt),
      (processFoods T cam pending st).enemies.length ≤
        st.enemies.length + List.countP (pickupHit cam) pending
  | [], st => le_refl _
  | f :: rest, st => by
      have ih := processFoods_enemies_ub T cam rest st
      unfold processFoods
      split_ifs with h
      · have hc := collectFood_enemies_ub T cam (processFoods T cam rest st)
        rw [List.countP_cons_of_pos _ _ (by simp [pickupHit, h])]
        omega
      · show (processFoods T cam rest st).enemies.length ≤ _
        rw [List.countP_cons_of_neg _ _ (by simp [pickupHit, h])]
        omega

theorem processFoods_cap (T : Trig) (cam : Vec3) :
    ∀ (pending : List Vec3) (st : FoodSt),
      st.enemies.length ≤ 5 → (processFoods T cam pending st).enemies.length ≤ 5
  | [], st => fun h => h
  | f :: rest, st => by
      intro hcap
      have ih := processFoods_cap T cam rest st hcap
      unfold processFoods
      split_ifs with h
      · exact collectFood_cap T cam _ ih
      · exact ih

theorem processFoods_survivors_sublist (T : Trig) (cam : Vec3) :
    ∀ (pending : List Vec3) (st : FoodSt),
      List.Sublist (List.filter (fun g => !(pickupHit cam g)) pending)
        (processFoods T cam pending st).foods
  | [], st => List.nil_sublist _
  | f :: rest, st => by
      have ih := processFoods_survivors_sublist T cam rest st
      unfold processFoods
      split_ifs with h
      · rw [List.filter_cons_of_neg (by simp [pickupHit, h])]
        exact List.Sublist.trans ih (collectFood_foods_sublist T cam _)
      · rw [List.filter_cons_of_pos (by simp [pickupHit, h])]
        exact List.Sublist.cons₂ f ih

theorem processFoods_tailSegments_mem (T : Trig) (cam : Vec3) :
    ∀ (pending : List Vec3) (st : FoodSt),
      ∀ p ∈ (processFoods T cam pending st).tailSegments, p ∈ st.tailSegments ∨ p.y = 1 / 5
  | [], st => fun p hp => Or.inl hp
  | f :: rest, st => by
      have ih := processFoods_tailSegments_mem T cam rest st
      unfold processFoods
      split_ifs with h
      · intro p hp
        rw [collectFood_tailSegments] at hp
        rcases List.mem_append.mp hp with h1 | h1
        · exact ih p h1
        · right
          rcases List.mem_cons.mp h1 with rfl | h2
          · rfl
          · rcases List.mem_cons.mp h2 with rfl | h3
            · rfl
            · exact absurd h3 (List.not_mem_nil p)
      · exact ih

theorem updateSegmentsFrom_length (positions : List Vec3) :
    ∀ (i : ℕ) (segs : List Vec3), (updateSegmentsFrom positions i segs).length = segs.length
  | _, [] => rfl
  | i, seg :: rest => by
      simp [updateSegmentsFrom, updateSegmentsFrom_length positions (i + 1) rest]

theorem updateSegmentsFrom_mem (positions : List Vec3) :
    ∀ (i : ℕ) (segs : List Vec3),
      ∀ p ∈ updateSegmentsFrom positions i segs, p ∈ segs ∨ p.y = 1 / 5
  | _, [] => by simp [updateSegmentsFrom]
  | i, seg :: rest => by
      intro p hp
      rw [updateSegmentsFrom] at hp
      rcases List.mem_cons.mp hp with h | h
      · by_cases hc : i < positions.length
        · rw [if_pos hc] at h
          right
          rw [h]
        · rw [if_neg hc] at h
          left
          rw [h]
          exact List.mem_cons_self seg rest
      · rcases updateSegmentsFrom_mem positions (i + 1) rest p h with h1 | h1
        · exact Or.inl (List.mem_cons_of_mem seg h1)
        · exact Or.inr h1

theorem updateSegments_length (positions segs : List Vec3) :
    (updateSegments positions segs).length = segs.length :=
  updateSegmentsFrom_length positions 0 segs

theorem updateSegments_mem (positions segs : List Vec3) :
    ∀ p ∈ updateSegments positions segs, p ∈ segs ∨ p.y = 1 / 5 :=
  updateSegmentsFrom_mem positions 0 segs

theorem removeHitFromEnd_length (p : Vec3) :
    ∀ (es es1 : List Enemy), removeHitFromEnd p es = some es1 → es1.length + 1 = es.length
  | [], es1 => by simp [removeHitFromEnd]
  | e :: rest, es1 => by
      intro h
      unfold removeHitFromEnd at h
      cases hr : removeHitFromEnd p rest with
      | some rest1 =>
          rw [hr] at h
          simp only [Option.some.injEq] at h
          have := removeHitFromEnd_length p rest rest1 hr
          rw [← h]
          simp only [List.length_cons]
          omega
      | none =>
          rw [hr] at h
          split_ifs at h with hd
          simp only [Option.some.injEq] at h
          rw [List.length_cons, h]

theorem removeHitFromEnd_none_iff (p : Vec3) :
    ∀ (es : List Enemy),
      (removeHitFromEnd p es = none ↔ ∀ e ∈ es, ¬ distSq p e.pos < 9 / 25)
  | [] => by simp [removeHitFromEnd]
  | e :: rest => by
      have ih := removeHitFromEnd_none_iff p rest
      unfold removeHitFromEnd
      cases hr : removeHitFromEnd p rest with
      | some rest1 =>
          show some (e :: rest1) = none ↔ ∀ x ∈ e :: rest, ¬ distSq p x.pos < 9 / 25
          constructor
          · intro h
            exact absurd h (by simp)
          · intro h
            have hnone : removeHitFromEnd p rest = none :=
              ih.mpr fun x hx => h x (List.mem_cons_of_mem e hx)
            rw [hr] at hnone
            exact absurd hnone (by simp)
      | none =>
          show (if distSq p e.pos < 9 / 25 then some rest else none) = none ↔
            ∀ x ∈ e :: rest, ¬ distSq p x.pos < 9 / 25
          split_ifs with hd
          · constructor
            · intro h
              exact absurd h (by simp)
            · intro h
              exact absurd hd (h e (List.mem_cons_self e rest))
          · constructor
            · intro _ x hx
              rcases List.mem_cons.mp hx with rfl | hx1
              · exact hd
              · exact (ih.mp hr) x hx1
            · intro _
              rfl

theorem processBullets_enemies_le (dt : ℚ) :
    ∀ (bs : List Bullet) (es : List Enemy) (sc : ℕ),
      (processBullets dt bs es sc).2.1.length ≤ es.length
  | [], _, _ => le_refl _
  | b :: rest, es, sc => by
      have ih := processBullets_enemies_le dt rest es sc
      unfold processBullets
      split_ifs with h
      · exact ih
      · cases hr : removeHitFromEnd (moveBullet dt b) (processBullets dt rest es sc).2.1 with
        | some es1 =>
            show es1.length ≤ es.length
            have hl := removeHitFromEnd_length _ _ _ hr
            omega
        | none =>
            show (processBullets dt rest es sc).2.1.length ≤ es.length
            exact ih

theorem trimTrail_length_le (l : List Vec3) (n : ℕ) : (trimTrail l n).length ≤ n + 50 := by
  unfold trimTrail
  split_ifs with h
  · simp only [List.length_drop]
    omega
  · simp only [not_lt] at h
    exact h

theorem trimTrail_suffix (l : List Vec3) (n : ℕ) : List.IsSuffix (trimTrail l n) l := by
  unfold trimTrail
  split_ifs with h
  · exact ⟨List.take (l.length - (n + 50)) l, List.take_append_drop _ l⟩
  · exact List.suffix_refl l

theorem trimTrail_ne_nil (l : List Vec3) (n : ℕ) (h : l ≠ []) : trimTrail l n ≠ [] := by
  unfold trimTrail
  split_ifs with hlt
  · intro hempty
    have hlen := congrArg List.length hempty
    simp only [List.length_drop, List.length_nil] at hlen
    omega
  · exact h

theorem trimTrail_getLast (l : List Vec3) (n : ℕ) (h : l ≠ []) :
    (trimTrail l n).getLast? = l.getLast? := by
  obtain ⟨t, ht⟩ := trimTrail_suffix l n
  conv_rhs => rw [← ht]
  rw [List.getLast?_append_of_ne_nil t (trimTrail_ne_nil l n h)]

theorem drop_set_of_lt (v : Vec3) :
    ∀ (l : List Vec3) (i n : ℕ), i < n → (List.set l i v).drop n = l.drop n
  | [], _, _, _ => by simp
  | a :: t, 0, n + 1, _ => by
      show t.drop n = t.drop n
      rfl
  | a :: t, i + 1, n + 1, h => by
      show (List.set t i v).drop n = t.drop n
      exact drop_set_of_lt v t i n (by omega)

theorem finalChecks_camera (s : GameState) : (finalChecks s).camera = s.camera := by
  unfold finalChecks endGame
  split_ifs <;> rfl

theorem finalChecks_stepAccumulator (s : GameState) :
    (finalChecks s).stepAccumulator = s.stepAccumulator := by
  unfold finalChecks endGame
  split_ifs <;> rfl

theorem finalChecks_tailPositions (s : GameState) :
    (finalChecks s).tailPositions = s.tailPositions := by
  unfold finalChecks endGame
  split_ifs <;> rfl

theorem finalChecks_tailSegments (s : GameState) :
    (finalChecks s).tailSegments = s.tailSegments := by
  unfold finalChecks endGame
  split_ifs <;> rfl

theorem finalChecks_tailLength (s : GameState) :
    (finalChecks s).tailLength = s.tailLength := by
  unfold finalChecks endGame
  split_ifs <;> rfl

theorem finalChecks_moveSpeed (s : GameState) :
    (finalChecks s).moveSpeed = s.moveSpeed := by
  unfold finalChecks endGame
  split_ifs <;> rfl

theorem finalChecks_score (s : GameState) : (finalChecks s).score = s.score := by
  unfold finalChecks endGame
  split_ifs <;> rfl

theorem finalChecks_foods (s : GameState) : (finalChecks s).foods = s.foods := by
  unfold finalChecks endGame
  split_ifs <;> rfl

theorem finalChecks_enemies (s : GameState) : (finalChecks s).enemies = s.enemies := by
  unfold finalChecks endGame
  split_ifs <;> rfl

theorem finalChecks_bullets (s : GameState) : (finalChecks s).bullets = s.bullets := by
  unfold finalChecks endGame
  split_ifs <;> rfl

theorem preChecks_camera (T : Trig) (dt : ℚ) (r : Rng) (s : GameState) :
    (preChecks T dt r s).camera = stepCameraOf T dt s := rfl

theorem preChecks_stepAccumulator (T : Trig) (dt : ℚ) (r : Rng) (s : GameState) :
    (preChecks T dt r s).stepAccumulator = (stepperUpdate s.stepAccumulator dt).1 := rfl

theorem preChecks_tailPositions (T : Trig) (dt : ℚ) (r : Rng) (s : GameState) :
    (preChecks T dt r s).tailPositions = trailOf T dt s := rfl

theorem preChecks_tailSegments (T : Trig) (dt : ℚ) (r : Rng) (s : GameState) :
    (preChecks T dt r s).tailSegments = (foodStOf T dt r s).tailSegments := rfl

theorem preChecks_tailLength (T : Trig) (dt : ℚ) (r : Rng) (s : GameState) :
    (preChecks T dt r s).tailLength = (foodStOf T dt r s).tailLength := rfl

theorem preChecks_moveSpeed (T : Trig) (dt : ℚ) (r : Rng) (s : GameState) :
    (preChecks T dt r s).moveSpeed = (foodStOf T dt r s).moveSpeed := rfl

theorem preChecks_foods (T : Trig) (dt : ℚ) (r : Rng) (s : GameState) :
    (preChecks T dt r s).foods = (foodStOf T dt r s).foods := rfl

theorem preChecks_enemies (T : Trig) (dt : ℚ) (r : Rng) (s : GameState) :
    (preChecks T dt r s).enemies = (foodStOf T dt r s).enemies := rfl

theorem animate_active (T : Trig) (dt : ℚ) (r : Rng) (s : GameState)
    (h : s.gameActive = true) :
    animate T dt r s = finalChecks (preChecks T dt r s) := by
  simp [animate, h]

theorem animate_not_active (T : Trig) (dt : ℚ) (r : Rng) (s : GameState)
    (h : s.gameActive = false) :
    animate T dt r s = s := by
  simp [animate, h]

theorem animate_camera (T : Trig) (dt : ℚ) (r : Rng) (s : GameState)
    (h : s.gameActive = true) :
    (animate T dt r s).camera = stepCameraOf T dt s := by
  rw [animate_active T dt r s h, finalChecks_camera, preChecks_camera]

theorem animate_tailPositions (T : Trig) (dt : ℚ) (r : Rng) (s : GameState)
    (h : s.gameActive = true) :
    (animate T dt r s).tailPositions = trailOf T dt s := by
  rw [animate_active T dt r s h, finalChecks_tailPositions, preChecks_tailPositions]

theorem animate_stepAccumulator (T : Trig) (dt : ℚ) (r : Rng) (s : GameState)
    (h : s.gameActive = true) :
    (animate T dt r s).stepAccumulator = (stepperUpdate s.stepAccumulator dt).1 := by
  rw [animate_active T dt r s h, finalChecks_stepAccumulator, preChecks_stepAccumulator]

theorem animate_tailLength (T : Trig) (dt : ℚ) (r : Rng) (s : GameState)
    (h : s.gameActive = true) :
    (animate T dt r s).tailLength =
      s.tailLength + 2 * List.countP (pickupHit (stepCameraOf T dt s)) s.foods := by
  rw [animate_active T dt r s h, finalChecks_tailLength, preChecks_tailLength]
  unfold foodStOf
  rw [processFoods_tailLength]

theorem animate_moveSpeed (T : Trig) (dt : ℚ) (r : Rng) (s : GameState)
    (h : s.gameActive = true) :
    (animate T dt r s).moveSpeed =
      s.moveSpeed +
        (List.countP (pickupHit (stepCameraOf T dt s)) s.foods : ℚ) * (1 / 20) := by
  rw [animate_active T dt r s h, finalChecks_moveSpeed, preChecks_moveSpeed]
  unfold foodStOf
  rw [processFoods_moveSpeed]

theorem animate_foods_length (T : Trig) (dt : ℚ) (r : Rng) (s : GameState)
    (h : s.gameActive = true) :
    (animate T dt r s).foods.length = s.foods.length := by
  rw [animate_active T dt r s h, finalChecks_foods, preChecks_foods]
  unfold foodStOf
  rw [processFoods_foods_length]
  simp

theorem animate_enemies_cap (T : Trig) (dt : ℚ) (r : Rng) (s : GameState)
    (hcap : s.enemies.length ≤ 5) :
    (animate T dt r s).enemies.length ≤ 5 := by
  cases hact : s.gameActive with
  | false => rw [animate_not_active T dt r s hact]; exact hcap
  | true =>
      rw [animate_active T dt r s hact, finalChecks_enemies, preChecks_enemies]
      unfold foodStOf
      refine processFoods_cap T _ s.foods _ ?_
      show (List.map (moveEnemy dt) (processBullets dt s.bullets s.enemies s.score).2.1).length ≤ 5
      rw [List.length_map]
      exact le_trans (processBullets_enemies_le dt s.bullets s.enemies s.score) hcap

theorem animate_tailLength_le (T : Trig) (dt : ℚ) (r : Rng) (s : GameState) :
    s.tailLength ≤ (animate T dt r s).tailLength := by
  cases hact : s.gameActive with
  | false => rw [animate_not_active T dt r s hact]
  | true => rw [animate_tailLength T dt r s hact]; omega

theorem animate_moveSpeed_le (T : Trig) (dt : ℚ) (r : Rng) (s : GameState) :
    s.moveSpeed ≤ (animate T dt r s).moveSpeed := by
  cases hact : s.gameActive with
  | false => rw [animate_not_active T dt r s hact]
  | true =>
      rw [animate_moveSpeed T dt r s hact]
      have : (0 : ℚ) ≤ (List.countP (pickupHit (stepCameraOf T dt s)) s.foods : ℚ) * (1 / 20) := by
        positivity
      linarith

theorem runFrames_tailLength_le (T : Trig) :
    ∀ (inputs : List (ℚ × Rng)) (s : GameState),
      s.tailLength ≤ (runFrames T inputs s).tailLength
  | [], _ => le_refl _
  | (dt, r) :: rest, s =>
      le_trans (animate_tailLength_le T dt r s)
        (runFrames_tailLength_le T rest (animate T dt r s))

theorem runFrames_moveSpeed_le (T : Trig) :
    ∀ (inputs : List (ℚ × Rng)) (s : GameState),
      s.moveSpeed ≤ (runFrames T inputs s).moveSpeed
  | [], _ => le_refl _
  | (dt, r) :: rest, s =>
      le_trans (animate_moveSpeed_le T dt r s)
        (runFrames_moveSpeed_le T rest (animate T dt r s))

theorem runFrames_enemies_cap (T : Trig) :
    ∀ (inputs : List (ℚ × Rng)) (s : GameState),
      s.enemies.length ≤ 5 → (runFrames T inputs s).enemies.length ≤ 5
  | [], _ => fun h => h
  | (dt, r) :: rest, s => fun h =>
      runFrames_enemies_cap T rest (animate T dt r s) (animate_enemies_cap T dt r s h)

theorem startGame_camera (T : Trig) (r : Rng) (s : GameState) (h : s.gameActive = false) :
    (startGame T r s).camera = ⟨0, snakeHeight, 0⟩ := by
  rw [startGame, if_neg (by simp [h])]

theorem startGame_yaw (T : Trig) (r : Rng) (s : GameState) (h : s.gameActive = false) :
    (startGame T r s).yaw = 0 := by
  rw [startGame, if_neg (by simp [h])]

theorem startGame_stepAccumulator (T : Trig) (r : Rng) (s : GameState)
    (h : s.gameActive = false) :
    (startGame T r s).stepAccumulator = 0 := by
  rw [startGame, if_neg (by simp [h])]

theorem startGame_tailPositions (T : Trig) (r : Rng) (s : GameState)
    (h : s.gameActive = false) :
    (startGame T r s).tailPositions = [] := by
  rw [startGame, if_neg (by simp [h])]

theorem startGame_tailSegments (T : Trig) (r : Rng) (s : GameState)
    (h : s.gameActive = false) :
    (startGame T r s).tailSegments = initialSegments := by
  rw [startGame, if_neg (by simp [h])]

theorem startGame_tailLength (T : Trig) (r : Rng) (s : GameState)
    (h : s.gameActive = false) :
    (startGame T r s).tailLength = 5 := by
  rw [startGame, if_neg (by simp [h])]

theorem startGame_moveSpeed (T : Trig) (r : Rng) (s : GameState)
    (h : s.gameActive = false) :
    (startGame T r s).moveSpeed = 2 := by
  rw [startGame, if_neg (by simp [h])]

theorem startGame_score (T : Trig) (r : Rng) (s : GameState) (h : s.gameActive = false) :
    (startGame T r s).score = 0 := by
  rw [startGame, if_neg (by simp [h])]

theorem startGame_bullets (T : Trig) (r : Rng) (s : GameState) (h : s.gameActive = false) :
    (startGame T r s).bullets = [] := by
  rw [startGame, if_neg (by simp [h])]

theorem startGame_gameActive (T : Trig) (r : Rng) (s : GameState)
    (h : s.gameActive = false) :
    (startGame T r s).gameActive = true := by
  rw [startGame, if_neg (by simp [h])]

theorem startGame_foods_length (T : Trig) (r : Rng) (s : GameState)
    (h : s.gameActive = false) :
    (startGame T r s).foods.length = 2 := by
  rw [startGame, if_neg (by simp [h])]
  simp [spawnEnemy_foods, spawnFood_foods_length]

theorem startGame_enemies_length (T : Trig) (r : Rng) (s : GameState)
    (h : s.gameActive = false) :
    (startGame T r s).enemies.length = 2 := by
  rw [startGame, if_neg (by simp [h])]
  simp [spawnEnemy_enemies_length, spawnFood_enemies]

theorem initialSegments_y : ∀ p ∈ initialSegments, p.y = 1 / 5 := by
  intro p hp
  unfold initialSegments at hp
  rcases List.mem_map.mp hp with ⟨i, _, rfl⟩
  rfl

theorem heightInv_startGame (T : Trig) (r : Rng) (s : GameState)
    (h : s.gameActive = false) :
    heightInv (startGame T r s) := by
  constructor
  · rw [startGame_camera T r s h]
  · rw [startGame_tailSegments T r s h]
    exact initialSegments_y

theorem heightInv_preChecks (T : Trig) (dt : ℚ) (r : Rng) (s : GameState)
    (h : heightInv s) :
    heightInv (preChecks T dt r s) := by
  obtain ⟨hc, hs⟩ := h
  constructor
  · rw [preChecks_camera]
    unfold stepCameraOf
    split_ifs
    · rfl
    · exact hc
  · intro p hp
    rw [preChecks_tailSegments] at hp
    unfold foodStOf at hp
    rcases processFoods_tailSegments_mem T _ _ _ p hp with h1 | h1
    · rcases updateSegments_mem _ _ p h1 with h2 | h2
      · rcases updateSegments_mem _ _ p h2 with h3 | h3
        · exact hs p h3
        · exact h3
      · exact h2
    · exact h1

theorem heightInv_endGame (msg : String) (s : GameState) (h : heightInv s) :
    heightInv (endGame msg s) := h

theorem heightInv_finalChecks (s : GameState) (h : heightInv s) :
    heightInv (finalChecks s) := by
  unfold finalChecks
  split_ifs <;> first
    | exact heightInv_endGame _ s h
    | exact h

theorem heightInv_animate (T : Trig) (dt : ℚ) (r : Rng) (s : GameState)
    (h : heightInv s) :
    heightInv (animate T dt r s) := by
  cases hact : s.gameActive with
  | false => rw [animate_not_active T dt r s hact]; exact h
  | true =>
      rw [animate_active T dt r s hact]
      exact heightInv_finalChecks _ (heightInv_preChecks T dt r s h)

/-- C1: with non-negative elapsed time `dt`, the simulation stepper adds
`dt` to the accumulator and fires a step exactly when the accumulated time
has reached the fixed interval; a firing call subtracts exactly one interval
(keeping the fractional remainder), a non-firing call keeps the whole
accumulated time, at most one step fires per call (the flag is Boolean and
the source uses `if`, not `while`), `dt` equal to ten intervals yields one
step and a positive remainder, and `animate` stores exactly this
accumulator each active frame. -/
theorem stepper_single_step (acc dt : ℚ) (_hdt : 0 ≤ dt) (T : Trig) (r : Rng)
    (s : GameState) (hact : s.gameActive = true) :
    ((stepperUpdate acc dt).2 = true ↔ stepInterval ≤ acc + dt) ∧
    ((stepperUpdate acc dt).2 = true →
      (stepperUpdate acc dt).1 = acc + dt - stepInterval) ∧
    ((stepperUpdate acc dt).2 = false → (stepperUpdate acc dt).1 = acc + dt) ∧
    ((stepperUpdate 0 (10 * stepInterval)).2 = true ∧
      0 < (stepperUpdate 0 (10 * stepInterval)).1) ∧
    (animate T dt r s).stepAccumulator = (stepperUpdate s.stepAccumulator dt).1 := by
  refine ⟨?_, ?_, ?_, ⟨?_, ?_⟩, animate_stepAccumulator T dt r s hact⟩
  · unfold stepperUpdate
    split_ifs with h <;> simp [h]
  · intro hfire
    unfold stepperUpdate at hfire ⊢
    split_ifs at hfire ⊢
    rfl
  · intro hrest
    unfold stepperUpdate at hrest ⊢
    split_ifs at hrest ⊢
    rfl
  · norm_num [stepperUpdate, stepInterval]
  · norm_num [stepperUpdate, stepInterval]

theorem stepper_single_step_witness :
    ((stepperUpdate 0 (1 / 2)).2 = true ↔ stepInterval ≤ 0 + 1 / 2) ∧
    ((stepperUpdate 0 (1 / 2)).2 = true →
      (stepperUpdate 0 (1 / 2)).1 = 0 + 1 / 2 - stepInterval) ∧
    ((stepperUpdate 0 (1 / 2)).2 = false → (stepperUpdate 0 (1 / 2)).1 = 0 + 1 / 2) ∧
    ((stepperUpdate 0 (10 * stepInterval)).2 = true ∧
      0 < (stepperUpdate 0 (10 * stepInterval)).1) ∧
    (animate cTrig (1 / 2) cRng cRun).stepAccumulator =
      (stepperUpdate cRun.stepAccumulator (1 / 2)).1 :=
  stepper_single_step 0 (1 / 2) (by norm_num) cTrig cRng cRun rfl

/-- C3: whenever, in an active frame, some adversary lies within the fixed
hit radius of the player after the per-frame updates, the frame ends the
session with the eaten-by-adversary message applied to the pre-check state:
the adversary check precedes the self-collision and wall checks, and no
further per-frame update runs after the check triggers. -/
theorem adversary_precedence (T : Trig) (dt : ℚ) (r : Rng) (s : GameState)
    (hact : s.gameActive = true) (hhit : enemyHit (preChecks T dt r s)) :
    animate T dt r s = endGame eatenMsg (preChecks T dt r s) := by
  rw [animate_active T dt r s hact]
  unfold finalChecks
  rw [if_pos hhit]

theorem adversary_precedence_witness :
    animate cTrig 0 cRng cChase = endGame eatenMsg (preChecks cTrig 0 cRng cChase) :=
  adversary_precedence cTrig 0 cRng cChase rfl
    (by
      refine ⟨⟨⟨0, 1 / 2, 0⟩, ⟨1, 0, 0⟩⟩, ?_, ?_⟩
      · show _ ∈ (foodStOf cTrig 0 cRng cChase).enemies
        norm_num [foodStOf, processFoods, processBullets, cChase, moveEnemy, addScaled,
          enemySpeed, floorY, worldSize]
      · show distSq (stepCameraOf cTrig 0 cChase) _ < 1
        norm_num [stepCameraOf, stepperUpdate, stepInterval, cChase, distSq])

/-- C6: trimming bounds the trail by the segment count plus the fixed
50-entry buffer, removes entries only from the front (the result is a
suffix of the input), keeps the newest recorded position, and consequently
every active frame ends with the trail no longer than the current segment
count plus the buffer. -/
theorem trail_trim_bound (l : List Vec3) (n : ℕ) (hl : l ≠ []) (T : Trig)
    (dt : ℚ) (r : Rng) (s : GameState) (hact : s.gameActive = true) :
    (trimTrail l n).length ≤ n + 50 ∧
    List.IsSuffix (trimTrail l n) l ∧
    (trimTrail l n).getLast? = l.getLast? ∧
    (animate T dt r s).tailPositions.length ≤
      (animate T dt r s).tailSegments.length + 50 := by
  refine ⟨trimTrail_length_le l n, trimTrail_suffix l n, trimTrail_getLast l n hl, ?_⟩
  rw [animate_tailPositions T dt r s hact, animate_active T dt r s hact,
    finalChecks_tailSegments, preChecks_tailSegments]
  have h1 : (trailOf T dt s).length ≤ s.tailSegments.length + 50 := by
    unfold trailOf
    exact trimTrail_length_le _ _
  have h2 : s.tailSegments.length ≤ (foodStOf T dt r s).tailSegments.length := by
    unfold foodStOf
    rw [processFoods_tailSegments_length]
    show s.tailSegments.length ≤
      (updateSegments (trailOf T dt s)
        (updateSegments (trailOf T dt s) s.tailSegments)).length + 2 * _
    rw [updateSegments_length, updateSegments_length]
    omega
  omega

theorem trail_trim_bound_witness :
    (trimTrail [⟨0, 8 / 5, 0⟩] 0).length ≤ 0 + 50 ∧
    List.IsSuffix (trimTrail [⟨0, 8 / 5, 0⟩] 0) [⟨0, 8 / 5, 0⟩] ∧
    (trimTrail [⟨0, 8 / 5, 0⟩] 0).getLast? = [(⟨0, 8 / 5, 0⟩ : Vec3)].getLast? ∧
    (animate cTrig 0 cRng cRun).tailPositions.length ≤
      (animate cTrig 0 cRng cRun).tailSegments.length + 50 :=
  trail_trim_bound [⟨0, 8 / 5, 0⟩] 0 (by simp) cTrig 0 cRng cRun rfl

/-- C8 amended (counterexample `end_clears_counterexample`): `endGame` does
not clear the registries or the trail — it only deactivates the session and
records the cause; the clearing happens synchronously inside the next
`startGame`, which resets the trail and projectile registry and reseeds
exactly two pickups and two adversaries, so no entity of the old session is
carried into the restarted one. -/
theorem end_defers_clearing (msg : String) (s : GameState) (T : Trig) (r : Rng)
    (sIdle : GameState) (hidle : sIdle.gameActive = false) :
    ((endGame msg s).foods = s.foods ∧ (endGame msg s).enemies = s.enemies ∧
      (endGame msg s).bullets = s.bullets ∧
      (endGame msg s).tailPositions = s.tailPositions ∧
      (endGame msg s).gameActive = false ∧ (endGame msg s).endMessage = some msg) ∧
    ((startGame T r sIdle).tailPositions = [] ∧ (startGame T r sIdle).bullets = [] ∧
      (startGame T r sIdle).foods.length = 2 ∧
      (startGame T r sIdle).enemies.length = 2) :=
  ⟨⟨rfl, rfl, rfl, rfl, rfl, rfl⟩,
    startGame_tailPositions T r sIdle hidle, startGame_bullets T r sIdle hidle,
    startGame_foods_length T r sIdle hidle, startGame_enemies_length T r sIdle hidle⟩

theorem end_clears_counterexample :
    (endGame eatenMsg cEnded).foods ≠ [] ∧ (endGame eatenMsg cEnded).enemies ≠ [] ∧
    (endGame eatenMsg cEnded).bullets ≠ [] ∧
    (endGame eatenMsg cEnded).tailPositions ≠ [] := by
  refine ⟨?_, ?_, ?_, ?_⟩ <;> simp [endGame, cEnded]

theorem end_defers_clearing_witness :
    ((endGame eatenMsg cEnded).foods = cEnded.foods ∧
      (endGame eatenMsg cEnded).enemies = cEnded.enemies ∧
      (endGame eatenMsg cEnded).bullets = cEnded.bullets ∧
      (endGame eatenMsg cEnded).tailPositions = cEnded.tailPositions ∧
      (endGame eatenMsg cEnded).gameActive = false ∧
      (endGame eatenMsg cEnded).endMessage = some eatenMsg) ∧
    ((startGame cTrig cRng cIdle).tailPositions = [] ∧
      (startGame cTrig cRng cIdle).bullets = [] ∧
      (startGame cTrig cRng cIdle).foods.length = 2 ∧
      (startGame cTrig cRng cIdle).enemies.length = 2) :=
  end_defers_clearing eatenMsg cEnded cTrig cRng cIdle rfl

/-- C9: across any sequence of frames, the body length and the speed are
monotonically non-decreasing, and `startGame` resets body length, speed and
score to the fixed initial constants 5, 2 and 0. -/
theorem session_monotone (T : Trig) (inputs : List (ℚ × Rng)) (s : GameState)
    (r : Rng) (sIdle : GameState) (hidle : sIdle.gameActive = false) :
    (s.tailLength ≤ (runFrames T inputs s).tailLength ∧
      s.moveSpeed ≤ (runFrames T inputs s).moveSpeed) ∧
    ((startGame T r sIdle).tailLength = 5 ∧ (startGame T r sIdle).moveSpeed = 2 ∧
      (startGame T r sIdle).score = 0) :=
  ⟨⟨runFrames_tailLength_le T inputs s, runFrames_moveSpeed_le T inputs s⟩,
    startGame_tailLength T r sIdle hidle, startGame_moveSpeed T r sIdle hidle,
    startGame_score T r sIdle hidle⟩

theorem session_monotone_witness :
    (cRun.tailLength ≤ (runFrames cTrig [(1 / 2, cRng)] cRun).tailLength ∧
      cRun.moveSpeed ≤ (runFrames cTrig [(1 / 2, cRng)] cRun).moveSpeed) ∧
    ((startGame cTrig cRng cIdle).tailLength = 5 ∧
      (startGame cTrig cRng cIdle).moveSpeed = 2 ∧
      (startGame cTrig cRng cIdle).score = 0) :=
  session_monotone cTrig [(1 / 2, cRng)] cRun cRng cIdle rfl

/-- C10: one frame preserves the five-adversary cap, `startGame` seeds
exactly two adversaries, and hence every state reached from a fresh session
by any sequence of frames has at most five adversaries. -/
theorem adversary_cap (T : Trig) (dt : ℚ) (r : Rng) (s : GameState)
    (inputs : List (ℚ × Rng)) (hcap : s.enemies.length ≤ 5) (r1 : Rng)
    (sIdle : GameState) (hidle : sIdle.gameActive = false) :
    (animate T dt r s).enemies.length ≤ 5 ∧
    (startGame T r1 sIdle).enemies.length = 2 ∧
    (runFrames T inputs (startGame T r1 sIdle)).enemies.length ≤ 5 :=
  ⟨animate_enemies_cap T dt r s hcap,
    startGame_enemies_length T r1 sIdle hidle,
    runFrames_enemies_cap T inputs _
      (by rw [startGame_enemies_length T r1 sIdle hidle]; omega)⟩

theorem processBullets_singleton (dt : ℚ) (b : Bullet) (es : List Enemy) (sc : ℕ) :
    processBullets dt [b] es sc =
      if bulletOut (moveBullet dt b) then ([], es, sc)
      else
        match removeHitFromEnd (moveBullet dt b) es with
        | some es1 => ([], es1, sc + 5)
        | none => ([{ b with pos := moveBullet dt b }], es, sc) := by
  rfl

/-- C4: the self-collision test reads only the segments from index 3 on —
rewriting any of the first three segments cannot change its outcome — and
under the height discipline the source maintains (established by
`startGame`, preserved by `animate`) the test never triggers at all, so in
particular a body of length 4, whose only tested segment is index 3, can
never self-collide. -/
theorem self_collision_scope (T : Trig) (dt : ℚ) (r0 : Rng) (s sIdle : GameState)
    (i : ℕ) (hi : i < 3) (v : Vec3) (hinv : heightInv s)
    (hidle : sIdle.gameActive = false) :
    (selfHit { s with tailSegments := s.tailSegments.set i v } ↔ selfHit s) ∧
    ¬ selfHit s ∧
    heightInv (startGame T r0 sIdle) ∧
    heightInv (animate T dt r0 s) := by
  refine ⟨?_, ?_, heightInv_startGame T r0 sIdle hidle, heightInv_animate T dt r0 s hinv⟩
  · show (∃ seg ∈ (List.set s.tailSegments i v).drop 3,
      distSq s.camera seg < 4 / 25) ↔ selfHit s
    rw [drop_set_of_lt v s.tailSegments i 3 hi]
    exact Iff.rfl
  · rintro ⟨seg, hseg, hd⟩
    obtain ⟨hc, hs⟩ := hinv
    have hmem : seg ∈ s.tailSegments := List.drop_subset 3 s.tailSegments hseg
    unfold distSq at hd
    rw [hc, hs seg hmem] at hd
    norm_num [snakeHeight] at hd
    nlinarith [sq_nonneg (s.camera.x - seg.x), sq_nonneg (s.camera.z - seg.z)]

theorem self_collision_scope_witness :
    (selfHit { cBody with tailSegments := cBody.tailSegments.set 0 ⟨9, 9, 9⟩ } ↔
      selfHit cBody) ∧
    ¬ selfHit cBody ∧
    heightInv (startGame cTrig cRng cIdle) ∧
    heightInv (animate cTrig 0 cRng cBody) :=
  self_collision_scope cTrig 0 cRng cBody cIdle 0 (by norm_num) ⟨9, 9, 9⟩
    (by
      constructor
      · rfl
      · intro p hp
        fin_cases hp <;> rfl)
    rfl

/-- C2: in every active frame whose accumulated time reaches the step
interval, the camera is translated by exactly `stepSize` along the yaw-only
forward vector `(sin yaw, 0, cos yaw)` (pitch excluded), its vertical
coordinate is re-pinned to the eye height, and the new position becomes the
newest trail entry; and starting a fresh session and advancing by one full
interval moves the player from the origin exactly `stepSize` along the
initial forward direction `(0, 0, 1)` and leaves a trail of length one. -/
theorem step_translation (T : Trig) (dt : ℚ) (r r0 r1 : Rng) (s sIdle : GameState)
    (hact : s.gameActive = true) (hstep : stepInterval ≤ s.stepAccumulator + dt)
    (hs0 : T.sinq 0 = 0) (hc0 : T.cosq 0 = 1) (hidle : sIdle.gameActive = false) :
    ((animate T dt r s).camera = stepCamera s.camera ⟨T.sinq s.yaw, 0, T.cosq s.yaw⟩ ∧
      (animate T dt r s).camera.y = snakeHeight ∧
      (animate T dt r s).tailPositions.getLast? = some ((animate T dt r s).camera)) ∧
    ((animate T stepInterval r1 (startGame T r0 sIdle)).camera =
        ⟨0, snakeHeight, stepSize⟩ ∧
      (animate T stepInterval r1 (startGame T r0 sIdle)).tailPositions =
        [⟨0, snakeHeight, stepSize⟩]) := by
  have fired : (stepperUpdate s.stepAccumulator dt).2 = true := by
    unfold stepperUpdate
    rw [if_pos hstep]
  have hcam : stepCameraOf T dt s =
      stepCamera s.camera ⟨T.sinq s.yaw, 0, T.cosq s.yaw⟩ := by
    unfold stepCameraOf
    rw [fired]
    simp
  have h0act := startGame_gameActive T r0 sIdle hidle
  have hacc := startGame_stepAccumulator T r0 sIdle hidle
  have hyaw := startGame_yaw T r0 sIdle hidle
  have hcam0 := startGame_camera T r0 sIdle hidle
  have htp := startGame_tailPositions T r0 sIdle hidle
  have hts := startGame_tailSegments T r0 sIdle hidle
  have fired0 : (stepperUpdate (startGame T r0 sIdle).stepAccumulator stepInterval).2 =
      true := by
    rw [hacc]
    unfold stepperUpdate
    rw [if_pos (by norm_num)]
  have hstep0 : stepCameraOf T stepInterval (startGame T r0 sIdle) =
      ⟨0, snakeHeight, stepSize⟩ := by
    unfold stepCameraOf
    rw [fired0]
    simp only [if_true]
    rw [hcam0, hyaw]
    unfold stepCamera addScaled
    simp [hs0, hc0]
  refine ⟨⟨?_, ?_, ?_⟩, ?_, ?_⟩
  · rw [animate_camera T dt r s hact, hcam]
  · rw [animate_camera T dt r s hact, hcam]
    rfl
  · rw [animate_tailPositions T dt r s hact, animate_camera T dt r s hact]
    unfold trailOf
    rw [fired]
    simp only [if_true]
    rw [trimTrail_getLast _ _ (by simp), List.getLast?_append_of_ne_nil _ (by simp)]
    rfl
  · rw [animate_camera T stepInterval r1 (startGame T r0 sIdle) h0act, hstep0]
  · rw [animate_tailPositions T stepInterval r1 (startGame T r0 sIdle) h0act]
    unfold trailOf
    rw [fired0]
    simp only [if_true]
    rw [htp, hstep0, hts]
    show trimTrail [⟨0, snakeHeight, stepSize⟩] initialSegments.length = _
    unfold trimTrail
    rw [if_neg (by simp [initialSegments])]

theorem step_translation_witness :
    (((animate cTrig (7 / 10) cRng cRun).camera =
        stepCamera cRun.camera ⟨cTrig.sinq cRun.yaw, 0, cTrig.cosq cRun.yaw⟩ ∧
      (animate cTrig (7 / 10) cRng cRun).camera.y = snakeHeight ∧
      (animate cTrig (7 / 10) cRng cRun).tailPositions.getLast? =
        some ((animate cTrig (7 / 10) cRng cRun).camera)) ∧
    ((animate cTrig stepInterval cRng (startGame cTrig cRng cIdle)).camera =
        ⟨0, snakeHeight, stepSize⟩ ∧
      (animate cTrig stepInterval cRng (startGame cTrig cRng cIdle)).tailPositions =
        [⟨0, snakeHeight, stepSize⟩])) :=
  step_translation cTrig (7 / 10) cRng cRng cRng cRun cIdle rfl
    (by norm_num [cRun, stepInterval]) rfl rfl rfl

/-- C5: the food loop of a frame removes every pickup the player touches, grows
the body by exactly two segments per touched pickup, bumps the speed by the
fixed 0.05 increment and the score by one per touched pickup, spawns
exactly one replacement per touched pickup (so the registry size after the
loop equals its size before it), retains every untouched pickup, and spawns
at most one extra adversary per touched pickup — a spawn happens exactly
when the adversary count is below the cap of five and the random draw is
below 0.3 — so a whole active frame leaves the pickup count unchanged. -/
theorem pickup_collection (T : Trig) (cam : Vec3) (pending : List Vec3)
    (st st1 : FoodSt) (dt : ℚ) (r : Rng) (s : GameState)
    (hact : s.gameActive = true) :
    ((processFoods T cam pending st).foods.length = st.foods.length + pending.length ∧
      (processFoods T cam pending st).tailLength =
        st.tailLength + 2 * List.countP (pickupHit cam) pending ∧
      (processFoods T cam pending st).score =
        st.score + List.countP (pickupHit cam) pending ∧
      (processFoods T cam pending st).moveSpeed =
        st.moveSpeed + (List.countP (pickupHit cam) pending : ℚ) * (1 / 20) ∧
      (processFoods T cam pending st).tailSegments.length =
        st.tailSegments.length + 2 * List.countP (pickupHit cam) pending ∧
      List.Sublist (List.filter (fun g => !(pickupHit cam g)) pending)
        (processFoods T cam pending st).foods) ∧
    (st.enemies.length ≤ (processFoods T cam pending st).enemies.length ∧
      (processFoods T cam pending st).enemies.length ≤
        st.enemies.length + List.countP (pickupHit cam) pending ∧
      (st.enemies.length ≤ 5 → (processFoods T cam pending st).enemies.length ≤ 5)) ∧
    ((st1.enemies.length < 5 → st1.rng.next.1 < 3 / 10 →
        (maybeSpawnEnemy T cam st1).enemies.length = st1.enemies.length + 1) ∧
      (st1.enemies.length < 5 → ¬ st1.rng.next.1 < 3 / 10 →
        (maybeSpawnEnemy T cam st1).enemies = st1.enemies) ∧
      (¬ st1.enemies.length < 5 → maybeSpawnEnemy T cam st1 = st1)) ∧
    (animate T dt r s).foods.length = s.foods.length := by
  refine ⟨⟨processFoods_foods_length T cam pending st,
    processFoods_tailLength T cam pending st, processFoods_score T cam pending st,
    processFoods_moveSpeed T cam pending st,
    processFoods_tailSegments_length T cam pending st,
    processFoods_survivors_sublist T cam pending st⟩,
    ⟨processFoods_enemies_lb T cam pending st, processFoods_enemies_ub T cam pending st,
      processFoods_cap T cam pending st⟩, ⟨?_, ?_, ?_⟩,
    animate_foods_length T dt r s hact⟩
  · intro hcap hroll
    rw [maybeSpawnEnemy_enemies_length, if_pos ⟨hcap, hroll⟩]
  · intro hcap hroll
    unfold maybeSpawnEnemy
    rw [if_pos hcap, if_neg hroll]
  · intro hcap
    unfold maybeSpawnEnemy
    rw [if_neg hcap]

theorem pickup_collection_witness :
    ((processFoods cTrig ⟨0, 1 / 2, 0⟩ [⟨0, 1 / 2, 0⟩] cFoodSt).foods.length =
        cFoodSt.foods.length + [(⟨0, 1 / 2, 0⟩ : Vec3)].length ∧
      (processFoods cTrig ⟨0, 1 / 2, 0⟩ [⟨0, 1 / 2, 0⟩] cFoodSt).tailLength =
        cFoodSt.tailLength +
          2 * List.countP (pickupHit ⟨0, 1 / 2, 0⟩) [⟨0, 1 / 2, 0⟩] ∧
      (processFoods cTrig ⟨0, 1 / 2, 0⟩ [⟨0, 1 / 2, 0⟩] cFoodSt).score =
        cFoodSt.score + List.countP (pickupHit ⟨0, 1 / 2, 0⟩) [⟨0, 1 / 2, 0⟩] ∧
      (processFoods cTrig ⟨0, 1 / 2, 0⟩ [⟨0, 1 / 2, 0⟩] cFoodSt).moveSpeed =
        cFoodSt.moveSpeed +
          (List.countP (pickupHit ⟨0, 1 / 2, 0⟩) [⟨0, 1 / 2, 0⟩] : ℚ) * (1 / 20) ∧
      (processFoods cTrig ⟨0, 1 / 2, 0⟩ [⟨0, 1 / 2, 0⟩] cFoodSt).tailSegments.length =
        cFoodSt.tailSegments.length +
          2 * List.countP (pickupHit ⟨0, 1 / 2, 0⟩) [⟨0, 1 / 2, 0⟩] ∧
      List.Sublist
        (List.filter (fun g => !(pickupHit ⟨0, 1 / 2, 0⟩ g)) [⟨0, 1 / 2, 0⟩])
        (processFoods cTrig ⟨0, 1 / 2, 0⟩ [⟨0, 1 / 2, 0⟩] cFoodSt).foods) ∧
    (cFoodSt.enemies.length ≤
        (processFoods cTrig ⟨0, 1 / 2, 0⟩ [⟨0, 1 / 2, 0⟩] cFoodSt).enemies.length ∧
      (processFoods cTrig ⟨0, 1 / 2, 0⟩ [⟨0, 1 / 2, 0⟩] cFoodSt).enemies.length ≤
        cFoodSt.enemies.length +
          List.countP (pickupHit ⟨0, 1 / 2, 0⟩) [⟨0, 1 / 2, 0⟩] ∧
      (cFoodSt.enemies.length ≤ 5 →
        (processFoods cTrig ⟨0, 1 / 2, 0⟩ [⟨0, 1 / 2, 0⟩] cFoodSt).enemies.length ≤ 5)) ∧
    ((cFoodSt.enemies.length < 5 → cFoodSt.rng.next.1 < 3 / 10 →
        (maybeSpawnEnemy cTrig ⟨0, 1 / 2, 0⟩ cFoodSt).enemies.length =
          cFoodSt.enemies.length + 1) ∧
      (cFoodSt.enemies.length < 5 → ¬ cFoodSt.rng.next.1 < 3 / 10 →
        (maybeSpawnEnemy cTrig ⟨0, 1 / 2, 0⟩ cFoodSt).enemies = cFoodSt.enemies) ∧
      (¬ cFoodSt.enemies.length < 5 →
        maybeSpawnEnemy cTrig ⟨0, 1 / 2, 0⟩ cFoodSt = cFoodSt)) ∧
    (animate cTrig 0 cRng cRun).foods.length = cRun.foods.length :=
  pickup_collection cTrig ⟨0, 1 / 2, 0⟩ [⟨0, 1 / 2, 0⟩] cFoodSt cFoodSt 0 cRng cRun rfl

/-- C7 amended (counterexample `projectile_order_counterexample`): for each
live projectile the source performs the out-of-bounds check first: an
out-of-bounds projectile is destroyed with no score effect even when an
adversary lies within the hit radius; an in-bounds projectile destroys
exactly the first adversary within the fixed hit radius in the scan order of
the source, awarding the fixed bonus of 5 and destroying at most one
adversary per frame; and an in-bounds projectile with no adversary in
radius survives with its moved position, the registry and score
unchanged. -/
theorem projectile_order (dt : ℚ) (b : Bullet) (es es1 : List Enemy) (sc : ℕ) :
    (bulletOut (moveBullet dt b) → processBullets dt [b] es sc = ([], es, sc)) ∧
    (¬ bulletOut (moveBullet dt b) → removeHitFromEnd (moveBullet dt b) es = some es1 →
      processBullets dt [b] es sc = ([], es1, sc + 5) ∧ es1.length + 1 = es.length) ∧
    (¬ bulletOut (moveBullet dt b) → removeHitFromEnd (moveBullet dt b) es = none →
      processBullets dt [b] es sc = ([{ b with pos := moveBullet dt b }], es, sc) ∧
      ∀ e ∈ es, ¬ distSq (moveBullet dt b) e.pos < 9 / 25) := by
  refine ⟨?_, ?_, ?_⟩
  · intro hout
    rw [processBullets_singleton, if_pos hout]
  · intro hin hsome
    refine ⟨?_, removeHitFromEnd_length _ es es1 hsome⟩
    rw [processBullets_singleton, if_neg hin, hsome]
  · intro hin hnone
    refine ⟨?_, (removeHitFromEnd_none_iff (moveBullet dt b) es).mp hnone⟩
    rw [processBullets_singleton, if_neg hin, hnone]

theorem projectile_order_counterexample :
    distSq (moveBullet 0 cBullet) cEnemy.pos < 9 / 25 ∧
    processBullets 0 [cBullet] [cEnemy] 0 = ([], [cEnemy], 0) := by
  constructor
  · norm_num [moveBullet, addScaled, distSq, cBullet, cEnemy, bulletSpeed]
  · rw [processBullets_singleton,
      if_pos (by norm_num [bulletOut, moveBullet, addScaled, cBullet, worldSize,
        bulletSpeed])]

theorem projectile_order_witness :
    processBullets 0 [cBullet] [cEnemy] 0 = ([], [cEnemy], 0) :=
  (projectile_order 0 cBullet [cEnemy] [] 0).1
    (by norm_num [bulletOut, moveBullet, addScaled, cBullet, worldSize, bulletSpeed])

theorem adversary_cap_witness :
    (animate cTrig 0 cRng cChase).enemies.length ≤ 5 ∧
    (startGame cTrig cRng cIdle).enemies.length = 2 ∧
    (runFrames cTrig [(1 / 2, cRng)] (startGame cTrig cRng cIdle)).enemies.length ≤ 5 :=
  adversary_cap cTrig 0 cRng cChase [(1 / 2, cRng)] (by simp [cChase]) cRng cIdle rfl

end SnakeFps
